import Mathlib

set_option linter.unusedVariables false

/-!
Shallow embedding of `crypto/message_verifier.go` from goRailsYourself.

Go strings and byte slices are modelled as `List Nat` (each element a byte
value `< 256`); the Go standard-library primitives the file calls
(`crypto/sha1`, `crypto/hmac`, `encoding/base64`, `encoding/hex`,
`strings.Split`) are implemented below following their documented
behaviour.  Go `error` values made by `errors.New` / `fmt.Errorf("…%w", err)`
are modelled by the inductive `GoErr`.  The nil-able `*MessageVerifier`
receiver is modelled as `Option (MessageVerifier α)`, and the in-place
mutation `crypt.Hasher = sha1.New` performed by `checkInit` is modelled by
returning the updated struct alongside each operation's result.
-/

namespace GoCrypto

/-- Go `error` values: `errors.New s` is `GoErr.msg s`; `fmt.Errorf("pre: %w", e)`
is `GoErr.wrapped "pre: " e`. -/
inductive GoErr : Type where
  | msg : String → GoErr
  | wrapped : String → GoErr → GoErr
deriving DecidableEq

/-- Model of Go's `hash.Hash` together with the block size used by
`crypto/hmac` (`sha1` has `BlockSize() = 64`). -/
structure GoHash : Type where
  hash : List Nat → List Nat
  blockSize : Nat

/-! ### SHA-1 (`crypto/sha1`), modelled over `Nat` with arithmetic mod 2^32 -/

def w32 : Nat := 4294967296

def rotl32 (x n : Nat) : Nat := ((x <<< n) % w32) ||| (x >>> (32 - n))

def sha1K (i : Nat) : Nat :=
  if i < 20 then 1518500249
  else if i < 40 then 1859775393
  else if i < 60 then 2400959708
  else 3395469782

def sha1F (i b c d : Nat) : Nat :=
  if i < 20 then (b &&& c) ||| ((b ^^^ 4294967295) &&& d)
  else if i < 40 then b ^^^ c ^^^ d
  else if i < 60 then (b &&& c) ||| (b &&& d) ||| (c &&& d)
  else b ^^^ c ^^^ d

/-- Big-endian 32-bit words from bytes. -/
def bytesToWords : List Nat → List Nat
  | a :: b :: c :: d :: rest => (((a * 256 + b) * 256 + c) * 256 + d) :: bytesToWords rest
  | _ => []

/-- One step of the SHA-1 message-schedule extension; `rev` holds the words
produced so far, most recent first, so `rev.getD 2 0` is `w[i-3]`. -/
def sha1extStep (rev : List Nat) : Nat :=
  rotl32 ((rev.getD 2 0) ^^^ (rev.getD 7 0) ^^^ (rev.getD 13 0) ^^^ (rev.getD 15 0)) 1

def sha1extend : Nat → List Nat → List Nat
  | 0, rev => rev
  | n + 1, rev => sha1extend n (sha1extStep rev :: rev)

structure SHA1St : Type where
  a : Nat
  b : Nat
  c : Nat
  d : Nat
  e : Nat

def sha1round (st : SHA1St) (iw : Nat × Nat) : SHA1St :=
  ⟨(rotl32 st.a 5 + sha1F iw.1 st.b st.c st.d + st.e + sha1K iw.1 + iw.2) % w32,
   st.a, rotl32 st.b 30, st.c, st.d⟩

def sha1chunk (h : SHA1St) (chunk : List Nat) : SHA1St :=
  let ws := (sha1extend 64 (bytesToWords chunk).reverse).reverse
  let st := ((List.range 80).zip ws).foldl sha1round h
  ⟨(h.a + st.a) % w32, (h.b + st.b) % w32, (h.c + st.c) % w32,
   (h.d + st.d) % w32, (h.e + st.e) % w32⟩

/-- Big-endian 8-byte encoding of a (bit-)length. -/
def beBytes8 (n : Nat) : List Nat :=
  [(n >>> 56) % 256, (n >>> 48) % 256, (n >>> 40) % 256, (n >>> 32) % 256,
   (n >>> 24) % 256, (n >>> 16) % 256, (n >>> 8) % 256, n % 256]

/-- SHA-1 padding: `0x80`, zeros to 56 mod 64, then the bit length. -/
def sha1pad (m : List Nat) : List Nat :=
  m ++ 128 :: (List.replicate ((119 - m.length % 64) % 64) 0 ++ beBytes8 (8 * m.length))

def chunks64 (l : List Nat) : List (List Nat) :=
  if h : l = [] then []
  else l.take 64 :: chunks64 (l.drop 64)
termination_by l.length
decreasing_by
  simp only [List.length_drop]
  have : l.length ≠ 0 := fun h0 => h (List.eq_nil_of_length_eq_zero h0)
  omega

/-- Big-endian bytes of one 32-bit word. -/
def wordBytes (w : Nat) : List Nat :=
  [(w >>> 24) % 256, (w >>> 16) % 256, (w >>> 8) % 256, w % 256]

def sha1IV : SHA1St := ⟨1732584193, 4023233417, 2562383102, 271733878, 3285377520⟩

def sha1 (m : List Nat) : List Nat :=
  let f := (chunks64 (sha1pad m)).foldl sha1chunk sha1IV
  wordBytes f.a ++ wordBytes f.b ++ wordBytes f.c ++ wordBytes f.d ++ wordBytes f.e

/-- `sha1.New` as a `GoHash` capability. -/
def sha1Hash : GoHash := ⟨sha1, 64⟩

/-! ### HMAC (`crypto/hmac`) -/

/-- `hmac.New(h, key)` then `Write(msg); Sum(nil)`: keys longer than the block
size are first hashed, then zero-padded to the block size; ipad = 0x36,
opad = 0x5c. -/
def hmac (h : GoHash) (key m : List Nat) : List Nat :=
  let k0 := if h.blockSize < key.length then h.hash key else key
  let k := k0 ++ List.replicate (h.blockSize - k0.length) 0
  h.hash ((k.map (fun b => b ^^^ 92)) ++ h.hash ((k.map (fun b => b ^^^ 54)) ++ m))

/-! ### Lowercase hex (`encoding/hex`) -/

def hexChar (n : Nat) : Nat := if n < 10 then 48 + n else 87 + n

def hexEncode : List Nat → List Nat
  | [] => []
  | b :: rest => hexChar (b / 16) :: hexChar (b % 16) :: hexEncode rest

/-! ### Standard base64 with padding (`encoding/base64`, `StdEncoding`) -/

def b64alpha (v : Nat) : Nat :=
  if v < 26 then 65 + v
  else if v < 52 then 71 + v
  else if v < 62 then v - 4
  else if v = 62 then 43
  else 47

def b64encode : List Nat → List Nat
  | a :: b :: c :: rest =>
      b64alpha (a / 4) :: b64alpha ((a % 4) * 16 + b / 16) ::
        b64alpha ((b % 16) * 4 + c / 64) :: b64alpha (c % 64) :: b64encode rest
  | [a, b] =>
      [b64alpha (a / 4), b64alpha ((a % 4) * 16 + b / 16), b64alpha ((b % 16) * 4), 61]
  | [a] => [b64alpha (a / 4), b64alpha ((a % 4) * 16), 61, 61]
  | [] => []

def b64val (ch : Nat) : Option Nat :=
  if 65 ≤ ch ∧ ch ≤ 90 then some (ch - 65)
  else if 97 ≤ ch ∧ ch ≤ 122 then some (ch - 71)
  else if 48 ≤ ch ∧ ch ≤ 57 then some (ch + 4)
  else if ch = 43 then some 62
  else if ch = 47 then some 63
  else none

/-- `base64.StdEncoding.Strict().DecodeString`: processes four-character
quanta, allows `=` padding only at the end, and (strict mode) requires the
unused trailing bits of the final quantum to be zero.  The pair returned is
(bytes written before any error, no error occurred) — Go's `DecodeString`
returns the partially decoded prefix together with the error, and the
caller in `Verify` discards the error.  (Go's decoder additionally skips
`\r`/`\n` characters; no input considered here contains them.) -/
def b64decode : List Nat → List Nat × Bool
  | [] => ([], true)
  | c1 :: c2 :: c3 :: c4 :: rest =>
    match b64val c1, b64val c2 with
    | some v1, some v2 =>
      if c3 = 61 then
        if c4 = 61 ∧ rest = [] ∧ v2 % 16 = 0 then ([v1 * 4 + v2 / 16], true)
        else ([], false)
      else
        match b64val c3 with
        | some v3 =>
          if c4 = 61 then
            if rest = [] ∧ v3 % 4 = 0 then
              ([v1 * 4 + v2 / 16, (v2 % 16) * 16 + v3 / 4], true)
            else ([], false)
          else
            match b64val c4 with
            | some v4 =>
              let tl := b64decode rest
              ((v1 * 4 + v2 / 16) :: ((v2 % 16) * 16 + v3 / 4) :: ((v3 % 4) * 64 + v4) :: tl.1,
               tl.2)
            | none => ([], false)
        | none => ([], false)
    | _, _ => ([], false)
  | _ => ([], false)

/-! ### `strings.Split(msg, "--")` (`--` is bytes `[45, 45]`) -/

def consHead (c : Nat) : List (List Nat) → List (List Nat)
  | [] => [[c]]
  | p :: ps => (c :: p) :: ps

/-- Go's `strings.Split` on the two-byte separator `--`: splits around each
leftmost non-overlapping occurrence. -/
def splitSep : List Nat → List (List Nat)
  | [] => [[]]
  | 45 :: 45 :: rest2 => [] :: splitSep rest2
  | c :: rest => consHead c (splitSep rest)

/-! ### The MessageVerifier component -/

/-- The pluggable serializer capability (`MsgSerializer`); declared outside
`src/`, modelled from the spec: `Serialize(value) → (bytes, error)`,
`Unserialize(bytes, outTargetPointer) → error`, where a populated target is
modelled by returning the value. -/
structure MsgSerializer (α : Type) : Type where
  Serialize : α → Except GoErr (List Nat)
  Unserialize : List Nat → Except GoErr α

/-- `MessageVerifier`: `Secret` and `Serializer` may be Go-nil, `Hasher` may
be Go-nil before first use. -/
structure MessageVerifier (α : Type) : Type where
  Secret : Option (List Nat)
  Hasher : Option GoHash
  Serializer : Option (MsgSerializer α)

/-- The sentinel `"Y U SET NO SECRET???!"` as bytes. -/
def sentinel : List Nat :=
  [89, 32, 85, 32, 83, 69, 84, 32, 78, 79, 32, 83, 69, 67, 82, 69, 84, 63, 63, 63, 33]

/-- `DigestFor`: sentinel when `Secret` is nil, otherwise lowercase hex of
the HMAC of `data` keyed by `Secret`.  (With a nil `Hasher` Go would panic
inside `hmac.New`; that branch is unreachable after `checkInit` and is
modelled as `[]`.) -/
def MessageVerifier.DigestFor (crypt : MessageVerifier α) (data : List Nat) : List Nat :=
  match crypt.Secret with
  | none => sentinel
  | some sec =>
    match crypt.Hasher with
    | none => []
    | some h => hexEncode (hmac h sec data)

/-- `secureCompare`: length check first, then the OR-reduction of the
bytewise XOR differences over every position. -/
def secureCompare (strA strB : List Nat) : Bool :=
  if strA.length ≠ strB.length then false
  else ((strA.zip strB).foldl (fun res p => res ||| (p.2 ^^^ p.1)) 0) == 0

/-- `checkInit`: nil receiver, then Serializer, then the lazy Hasher
default, then Secret.  Returns the (possibly Hasher-defaulted) receiver
together with the error, modelling the in-place field write. -/
def checkInit (crypt : Option (MessageVerifier α)) :
    Option (MessageVerifier α) × Option GoErr :=
  match crypt with
  | none => (none, some (.msg "MessageVerifier not set"))
  | some c =>
    match c.Serializer with
    | none => (some c, some (.msg "Serializer not set"))
    | some _ =>
      let c2 : MessageVerifier α :=
        match c.Hasher with
        | none => ⟨c.Secret, some sha1Hash, c.Serializer⟩
        | some _ => c
      match c2.Secret with
      | none => (some c2, some (.msg "Secret not set"))
      | some _ => (some c2, none)

def IsValid (crypt : Option (MessageVerifier α)) :
    Option (MessageVerifier α) × (Bool × Option GoErr) :=
  match checkInit crypt with
  | (c2, some e) => (c2, (false, some e))
  | (c2, none) => (c2, (true, none))

def invalidSig (s : String) : GoErr := .msg ("Invalid signature - " ++ s)

/-- `Verify`: split on `--`, constant-time digest comparison, base64 decode
with the error discarded (`decodedData, _ := …`), then unserialization of
the quote-wrapped bytes with a fallback to the raw bytes. -/
def Verify (crypt : Option (MessageVerifier α)) (msg : List Nat) :
    Option (MessageVerifier α) × Except GoErr α :=
  match checkInit crypt with
  | (crypt2, some e) => (crypt2, .error e)
  | (crypt2, none) =>
    (crypt2,
     match crypt2 with
     | none => .error (.msg "unreachable: checkInit rejects a nil receiver")
     | some c =>
       if msg = [] then .error (invalidSig "empty message")
       else
         let dataDigest := splitSep msg
         if dataDigest.length ≠ 2 then .error (invalidSig "bad data --")
         else
           let data := dataDigest.getD 0 []
           let digest := dataDigest.getD 1 []
           if secureCompare digest (c.DigestFor data) = false then
             .error (invalidSig "bad data (compare)")
           else
             let decodedData := (b64decode data).1
             let decodedString := 34 :: decodedData ++ [34]
             match c.Serializer with
             | none => .error (.msg "unreachable: checkInit ensures a Serializer")
             | some ser =>
               match ser.Unserialize decodedString with
               | .ok v => .ok v
               | .error _ =>
                 match ser.Unserialize decodedData with
                 | .ok v => .ok v
                 | .error e2 =>
                   .error (.wrapped "failed to unserialize both quoted and raw data: " e2))

/-- `Generate`: serialize, base64-encode, digest the encoded form, join
with `--`. -/
def Generate (crypt : Option (MessageVerifier α)) (value : α) :
    Option (MessageVerifier α) × Except GoErr (List Nat) :=
  match checkInit crypt with
  | (crypt2, some e) => (crypt2, .error e)
  | (crypt2, none) =>
    (crypt2,
     match crypt2 with
     | none => .error (.msg "unreachable: checkInit rejects a nil receiver")
     | some c =>
       match c.Serializer with
       | none => .error (.msg "unreachable: checkInit ensures a Serializer")
       | some ser =>
         match ser.Serialize value with
         | .error e => .error e
         | .ok data =>
           let str := b64encode data
           let digest := c.DigestFor str
           .ok (str ++ 45 :: 45 :: digest))

instance {ε α : Type} [DecidableEq ε] [DecidableEq α] : DecidableEq (Except ε α) := fun x y =>
  match x, y with
  | .error a, .error b =>
    if h : a = b then .isTrue (by rw [h]) else .isFalse (fun hc => h (by cases hc; rfl))
  | .error _, .ok _ => .isFalse (fun hc => Except.noConfusion hc)
  | .ok _, .error _ => .isFalse (fun hc => Except.noConfusion hc)
  | .ok a, .ok b =>
    if h : a = b then .isTrue (by rw [h]) else .isFalse (fun hc => h (by cases hc; rfl))

/-- The post-`checkInit` body of `Verify`, written out once so the theorems
below can reason about a single expression. -/
def verifyBody (c : MessageVerifier α) (ser : MsgSerializer α) (msg : List Nat) :
    Except GoErr α :=
  if msg = [] then .error (invalidSig "empty message")
  else if (splitSep msg).length ≠ 2 then .error (invalidSig "bad data --")
  else if secureCompare ((splitSep msg).getD 1 [])
            (c.DigestFor ((splitSep msg).getD 0 [])) = false then
    .error (invalidSig "bad data (compare)")
  else
    match ser.Unserialize (34 :: (b64decode ((splitSep msg).getD 0 [])).1 ++ [34]) with
    | .ok v => .ok v
    | .error _ =>
      match ser.Unserialize (b64decode ((splitSep msg).getD 0 [])).1 with
      | .ok v => .ok v
      | .error e2 => .error (.wrapped "failed to unserialize both quoted and raw data: " e2)

/-! ### Concrete fixtures used by witnesses and counterexamples -/

/-- A small injected hasher for the concrete examples below (the hash is a
pluggable capability of the Verifier). -/
def tinyHash : GoHash :=
  ⟨fun l => [l.foldl (fun a b => (a + b) % 256) 0, l.length % 256], 4⟩

/-- A serializer that accepts any byte string unchanged. -/
def rawSer : MsgSerializer (List Nat) := ⟨fun l => .ok l, fun l => .ok l⟩

/-- A strict JSON-string-like text codec: a value is a byte string without
the quote character, serialized by wrapping it in quotes. -/
def quotedSer : MsgSerializer (List Nat) :=
  ⟨fun l => if 34 ∈ l then .error (.msg "cannot serialize a quote")
            else .ok (34 :: (l ++ [34])),
   fun bs =>
     if 2 ≤ bs.length ∧ bs.head? = some 34 ∧ bs.getLast? = some 34 ∧
        34 ∉ (bs.drop 1).dropLast
     then .ok ((bs.drop 1).dropLast)
     else .error (.msg "not a quoted string")⟩

/-- A round-tripping serializer of booleans whose `Unserialize` also
accepts the quote-wrapped form of its own output, decoding it to the other
value. -/
def boolSer : MsgSerializer Bool :=
  ⟨fun _ => .ok [120],
   fun l =>
     if l = [120] then .ok true
     else if l = [34, 120, 34] then .ok false
     else .error (.msg "unrecognized")⟩

def mvRaw : MessageVerifier (List Nat) := ⟨some [107, 101, 121], some tinyHash, some rawSer⟩

def mvQ : MessageVerifier (List Nat) := ⟨some [107, 101, 121], some tinyHash, some quotedSer⟩

def mvBool : MessageVerifier Bool := ⟨some [107, 101, 121], some tinyHash, some boolSer⟩

/-- A verifier with a present but zero-length Secret. -/
def mvEmptyKey : MessageVerifier (List Nat) := ⟨some [], some tinyHash, some rawSer⟩

/-- A verifier with a nil Secret. -/
def mvNoKey : MessageVerifier (List Nat) := ⟨none, some tinyHash, some rawSer⟩

/-! ### Basic lemmas -/

theorem lor_eq_zero_iff (a b : Nat) : a ||| b = 0 ↔ a = 0 ∧ b = 0 := by
  constructor
  · intro h
    refine ⟨?_, ?_⟩ <;> by_contra hne
    · obtain ⟨i, hi⟩ := Nat.ne_zero_implies_bit_true hne
      have hbit : (a ||| b).testBit i = true := by
        rw [Nat.testBit_or, hi]; rfl
      rw [h] at hbit
      simp [Nat.zero_testBit] at hbit
    · obtain ⟨i, hi⟩ := Nat.ne_zero_implies_bit_true hne
      have hbit : (a ||| b).testBit i = true := by
        rw [Nat.testBit_or, hi, Bool.or_true]
      rw [h] at hbit
      simp [Nat.zero_testBit] at hbit
  · rintro ⟨rfl, rfl⟩; rfl

theorem orXor_foldl_eq_zero (ps : List (Nat × Nat)) :
    ∀ acc, (ps.foldl (fun res p => res ||| (p.2 ^^^ p.1)) acc = 0) ↔
      (acc = 0 ∧ ∀ p ∈ ps, p.1 = p.2) := by
  induction ps with
  | nil => intro acc; simp
  | cons p ps ih =>
    intro acc
    simp only [List.foldl_cons, ih, lor_eq_zero_iff, List.mem_cons]
    constructor
    · rintro ⟨⟨h1, h2⟩, h3⟩
      refine ⟨h1, fun q hq => ?_⟩
      rcases hq with rfl | hq
      · exact (Nat.xor_eq_zero.mp h2).symm
      · exact h3 q hq
    · rintro ⟨h1, h2⟩
      exact ⟨⟨h1, Nat.xor_eq_zero.mpr (h2 p (Or.inl rfl)).symm⟩,
             fun q hq => h2 q (Or.inr hq)⟩

theorem zip_pointwise_eq (a : List Nat) :
    ∀ b : List Nat, a.length = b.length → ((∀ p ∈ a.zip b, p.1 = p.2) ↔ a = b) := by
  induction a with
  | nil =>
    intro b h
    cases b with
    | nil => simp
    | cons y ys => simp at h
  | cons x xs ih =>
    intro b h
    cases b with
    | nil => simp at h
    | cons y ys =>
      simp only [List.zip_cons_cons, List.mem_cons, List.cons.injEq]
      rw [← ih ys (by simpa using h)]
      constructor
      · intro hp
        exact ⟨hp _ (Or.inl rfl), fun q hq => hp q (Or.inr hq)⟩
      · rintro ⟨h1, h2⟩ q hq
        rcases hq with rfl | hq
        · exact h1
        · exact h2 q hq

theorem secureCompare_eq_true_iff (a b : List Nat) (h : a.length = b.length) :
    secureCompare a b = true ↔ a = b := by
  unfold secureCompare
  rw [if_neg (by omega)]
  rw [beq_iff_eq, orXor_foldl_eq_zero]
  rw [zip_pointwise_eq a b h]
  simp

theorem secureCompare_self (l : List Nat) : secureCompare l l = true :=
  (secureCompare_eq_true_iff l l rfl).mpr rfl

theorem secureCompare_of_length_ne (a b : List Nat) (h : a.length ≠ b.length) :
    secureCompare a b = false := by
  unfold secureCompare
  rw [if_pos h]

/-! ### splitSep lemmas -/

theorem splitSep_cons_ne45 (c : Nat) (t : List Nat) (h : c ≠ 45) :
    splitSep (c :: t) = consHead c (splitSep t) := by
  rw [splitSep.eq_def]
  split
  · simp_all
  · simp_all
  · rename_i heq
    rw [List.cons.injEq] at heq
    rw [heq.1, heq.2]

theorem splitSep_no_sep : ∀ l : List Nat, 45 ∉ l → splitSep l = [l]
  | [], _ => rfl
  | c :: t, h => by
    have hc : c ≠ 45 := fun hc => h (hc ▸ List.mem_cons_self c t)
    have ht : 45 ∉ t := fun ht => h (List.mem_cons_of_mem c ht)
    rw [splitSep_cons_ne45 c t hc, splitSep_no_sep t ht]
    rfl

theorem splitSep_append_sep : ∀ xs : List Nat, 45 ∉ xs →
    ∀ ys : List Nat, splitSep (xs ++ 45 :: 45 :: ys) = xs :: splitSep ys
  | [], _, ys => rfl
  | x :: xs, h, ys => by
    have hx : x ≠ 45 := fun hc => h (hc ▸ List.mem_cons_self x xs)
    have hxs : 45 ∉ xs := fun ht => h (List.mem_cons_of_mem x ht)
    rw [List.cons_append, splitSep_cons_ne45 x _ hx, splitSep_append_sep xs hxs ys]
    rfl

/-! ### base64 lemmas -/

theorem b64val_alpha : ∀ v : Nat, v < 64 → b64val (b64alpha v) = some v := by decide

theorem b64alpha_ne_45 (v : Nat) : b64alpha v ≠ 45 := by
  unfold b64alpha
  split
  · omega
  split
  · omega
  split
  · omega
  split <;> omega

theorem b64alpha_ne_61 (v : Nat) : b64alpha v ≠ 61 := by
  unfold b64alpha
  split
  · omega
  split
  · omega
  split
  · omega
  split <;> omega

theorem b64encode_not45 : ∀ l : List Nat, 45 ∉ b64encode l
  | a :: b :: c :: rest => by
    simp only [b64encode, List.mem_cons, not_or]
    exact ⟨Ne.symm (b64alpha_ne_45 _), Ne.symm (b64alpha_ne_45 _),
           Ne.symm (b64alpha_ne_45 _), Ne.symm (b64alpha_ne_45 _), b64encode_not45 rest⟩
  | [a, b] => by
    simp only [b64encode, List.mem_cons, not_or]
    refine ⟨Ne.symm (b64alpha_ne_45 _), Ne.symm (b64alpha_ne_45 _),
            Ne.symm (b64alpha_ne_45 _), by omega, List.not_mem_nil 45⟩
  | [a] => by
    simp only [b64encode, List.mem_cons, not_or]
    refine ⟨Ne.symm (b64alpha_ne_45 _), Ne.symm (b64alpha_ne_45 _),
            by omega, by omega, List.not_mem_nil 45⟩
  | [] => List.not_mem_nil 45

theorem b64decode_encode : ∀ l : List Nat, (∀ b ∈ l, b < 256) →
    b64decode (b64encode l) = (l, true)
  | [] => fun _ => rfl
  | [a] => fun h => by
    have ha : a < 256 := h a (by simp)
    have e1 := b64val_alpha (a / 4) (by omega)
    have e2 := b64val_alpha (a % 4 * 16) (by omega)
    have k1 : a % 4 * 16 % 16 = 0 := by omega
    simp [b64encode, b64decode, e1, e2, k1]
    omega
  | [a, b] => fun h => by
    have ha : a < 256 := h a (by simp)
    have hb : b < 256 := h b (by simp)
    have e1 := b64val_alpha (a / 4) (by omega)
    have e2 := b64val_alpha (a % 4 * 16 + b / 16) (by omega)
    have e3 := b64val_alpha (b % 16 * 4) (by omega)
    have n3 : ¬(b64alpha (b % 16 * 4) = 61) := b64alpha_ne_61 _
    have k1 : b % 16 * 4 % 4 = 0 := by omega
    simp [b64encode, b64decode, e1, e2, e3, n3, k1]
    omega
  | a :: b :: c :: rest => fun h => by
    have ha : a < 256 := h a (by simp)
    have hb : b < 256 := h b (by simp)
    have hc : c < 256 := h c (by simp)
    have hrest : ∀ x ∈ rest, x < 256 := fun x hx => h x (by simp [hx])
    have e1 := b64val_alpha (a / 4) (by omega)
    have e2 := b64val_alpha (a % 4 * 16 + b / 16) (by omega)
    have e3 := b64val_alpha (b % 16 * 4 + c / 64) (by omega)
    have e4 := b64val_alpha (c % 64) (by omega)
    have n3 : ¬(b64alpha (b % 16 * 4 + c / 64) = 61) := b64alpha_ne_61 _
    have n4 : ¬(b64alpha (c % 64) = 61) := b64alpha_ne_61 _
    have rec := b64decode_encode rest hrest
    simp [b64encode, b64decode, e1, e2, e3, e4, n3, n4, rec]
    omega

/-! ### hex and sha1 lemmas -/

theorem hexChar_ne_45 (n : Nat) : hexChar n ≠ 45 := by
  unfold hexChar; split <;> omega

theorem hexEncode_not45 : ∀ l : List Nat, 45 ∉ hexEncode l
  | [] => List.not_mem_nil 45
  | b :: rest => by
    simp only [hexEncode, List.mem_cons, not_or]
    exact ⟨Ne.symm (hexChar_ne_45 _), Ne.symm (hexChar_ne_45 _), hexEncode_not45 rest⟩

theorem hexEncode_length : ∀ l : List Nat, (hexEncode l).length = 2 * l.length
  | [] => rfl
  | b :: rest => by
    simp only [hexEncode, List.length_cons, hexEncode_length rest]
    omega

theorem sha1_length (m : List Nat) : (sha1 m).length = 20 := by
  simp [sha1, wordBytes]

theorem sha1_mem_lt (m : List Nat) : ∀ b ∈ sha1 m, b < 256 := by
  intro b hb
  simp only [sha1, wordBytes, List.mem_append, List.mem_cons,
    List.not_mem_nil, or_false] at hb
  rcases hb with ((h | h | h | h) | (h | h | h | h) | (h | h | h | h)) |
    (h | h | h | h) | (h | h | h | h) <;> omega

/-! ### checkInit and DigestFor helper lemmas -/

theorem digestFor_some (c : MessageVerifier α) (sec : List Nat) (h0 : GoHash)
    (data : List Nat) (hsec : c.Secret = some sec) (hh : c.Hasher = some h0) :
    c.DigestFor data = hexEncode (hmac h0 sec data) := by
  simp [MessageVerifier.DigestFor, hsec, hh]

theorem checkInit_config (c : MessageVerifier α) (ser : MsgSerializer α)
    (h0 : GoHash) (sec : List Nat) (hser : c.Serializer = some ser)
    (hh : c.Hasher = some h0) (hsec : c.Secret = some sec) :
    checkInit (some c) = (some c, none) := by
  simp [checkInit, hser, hh, hsec]

theorem checkInit_config_default (c : MessageVerifier α) (ser : MsgSerializer α)
    (sec : List Nat) (hser : c.Serializer = some ser)
    (hh : c.Hasher = none) (hsec : c.Secret = some sec) :
    checkInit (some c) = (some ⟨c.Secret, some sha1Hash, c.Serializer⟩, none) := by
  simp [checkInit, hser, hh, hsec]

theorem checkInit_fst_of_ser_none (c : MessageVerifier α) (hser : c.Serializer = none) :
    (checkInit (some c)).1 = some c := by
  simp [checkInit, hser]

theorem checkInit_fst_of_hasher_some (c : MessageVerifier α) (h0 : GoHash)
    (hh : c.Hasher = some h0) : (checkInit (some c)).1 = some c := by
  cases hser : c.Serializer with
  | none => simp [checkInit, hser]
  | some ser => cases hsec : c.Secret <;> simp [checkInit, hser, hh, hsec]

theorem checkInit_fst_of_hasher_none (c : MessageVerifier α) (ser : MsgSerializer α)
    (hser : c.Serializer = some ser) (hh : c.Hasher = none) :
    (checkInit (some c)).1 = some ⟨c.Secret, some sha1Hash, c.Serializer⟩ := by
  cases hsec : c.Secret <;> simp [checkInit, hser, hh, hsec]

theorem IsValid_fst (cr : Option (MessageVerifier α)) :
    (IsValid cr).1 = (checkInit cr).1 := by
  unfold IsValid
  rcases checkInit cr with ⟨c2, e⟩
  cases e <;> rfl

theorem Verify_fst (cr : Option (MessageVerifier α)) (msg : List Nat) :
    (Verify cr msg).1 = (checkInit cr).1 := by
  unfold Verify
  rcases checkInit cr with ⟨c2, e⟩
  cases e <;> rfl

theorem Generate_fst (cr : Option (MessageVerifier α)) (v : α) :
    (Generate cr v).1 = (checkInit cr).1 := by
  unfold Generate
  rcases checkInit cr with ⟨c2, e⟩
  cases e <;> rfl

theorem Verify_eq_body (c c2 : MessageVerifier α) (ser : MsgSerializer α)
    (hchk : checkInit (some c) = (some c2, none)) (hser2 : c2.Serializer = some ser)
    (msg : List Nat) : (Verify (some c) msg).2 = verifyBody c2 ser msg := by
  rw [Verify, hchk]
  simp only [verifyBody, hser2]

theorem hmac_sha1_length (key m : List Nat) : (hmac sha1Hash key m).length = 20 :=
  sha1_length _

theorem hmac_sha1_mem_lt (key m : List Nat) : ∀ b ∈ hmac sha1Hash key m, b < 256 :=
  sha1_mem_lt _

theorem hexEncode_all_hexdigits : ∀ l : List Nat, (∀ b ∈ l, b < 256) →
    (hexEncode l).all (fun ch => ((48 ≤ ch && ch ≤ 57) || (97 ≤ ch && ch ≤ 102))) = true
  | [] => fun _ => rfl
  | b :: rest => fun h => by
    have hb : b < 256 := h b (by simp)
    have hdigit : ∀ n : Nat, n < 16 →
        ((48 ≤ hexChar n && hexChar n ≤ 57) || (97 ≤ hexChar n && hexChar n ≤ 102)) = true := by
      decide
    have hrest := hexEncode_all_hexdigits rest (fun x hx => h x (by simp [hx]))
    simp only [hexEncode, List.all_cons, hrest, Bool.and_true]
    rw [hdigit (b / 16) (by omega), hdigit (b % 16) (by omega)]
    rfl

/-! ## Claim theorems -/

/-- C8: calling IsValid, Generate, or Verify on a nil MessageVerifier
pointer returns the error "MessageVerifier not set" rather than
dereferencing the nil receiver; in the embedding all three operations are
total functions of the `none` receiver and return exactly this error. -/
theorem C8_nil_receiver (α : Type) (msg : List Nat) (v : α) :
    IsValid (none : Option (MessageVerifier α)) =
      (none, (false, some (.msg "MessageVerifier not set"))) ∧
    (Verify (none : Option (MessageVerifier α)) msg).2 =
      .error (.msg "MessageVerifier not set") ∧
    (Generate (none : Option (MessageVerifier α)) v).2 =
      .error (.msg "MessageVerifier not set") :=
  ⟨rfl, rfl, rfl⟩

/-- C10: no public operation modifies Secret or Serializer; the only field
mutation in the component is checkInit replacing a nil Hasher with the
default SHA-1 constructor (and only after the Serializer check passed);
once Hasher is non-nil, checkInit, IsValid, Verify and Generate all leave
the receiver exactly as it was. -/
theorem C10_frame (α : Type) (c : MessageVerifier α) (msg : List Nat) (v : α) :
    (∀ c2, (checkInit (some c)).1 = some c2 →
       c2.Secret = c.Secret ∧ c2.Serializer = c.Serializer) ∧
    (c.Serializer = none → (checkInit (some c)).1 = some c) ∧
    (∀ ser, c.Serializer = some ser → c.Hasher = none →
       (checkInit (some c)).1 = some ⟨c.Secret, some sha1Hash, c.Serializer⟩) ∧
    (∀ h0, c.Hasher = some h0 →
       (checkInit (some c)).1 = some c ∧ (IsValid (some c)).1 = some c ∧
       (Verify (some c) msg).1 = some c ∧ (Generate (some c) v).1 = some c) := by
  refine ⟨?_, checkInit_fst_of_ser_none c, ?_, ?_⟩
  · intro c2 h2
    cases hser : c.Serializer with
    | none =>
      rw [checkInit_fst_of_ser_none c hser] at h2
      cases h2
      exact ⟨rfl, hser⟩
    | some ser =>
      cases hh : c.Hasher with
      | none =>
        rw [checkInit_fst_of_hasher_none c ser hser hh] at h2
        cases h2
        exact ⟨rfl, hser⟩
      | some h0 =>
        rw [checkInit_fst_of_hasher_some c h0 hh] at h2
        cases h2
        exact ⟨rfl, hser⟩
  · intro ser hser hh
    exact checkInit_fst_of_hasher_none c ser hser hh
  · intro h0 hh
    refine ⟨checkInit_fst_of_hasher_some c h0 hh, ?_, ?_, ?_⟩
    · rw [IsValid_fst]; exact checkInit_fst_of_hasher_some c h0 hh
    · rw [Verify_fst]; exact checkInit_fst_of_hasher_some c h0 hh
    · rw [Generate_fst]; exact checkInit_fst_of_hasher_some c h0 hh

/-- C10 witness: the frame property evaluated on a concrete fully
configured verifier. -/
theorem C10_witness :
    (checkInit (some mvRaw)).1 = some mvRaw ∧ (IsValid (some mvRaw)).1 = some mvRaw ∧
    (Verify (some mvRaw) [97]).1 = some mvRaw ∧ (Generate (some mvRaw) [97]).1 = some mvRaw :=
  (C10_frame (List Nat) mvRaw [97] [97]).2.2.2 tinyHash rfl

/-- C9: checkInit rejects the Secret only when it is nil — a present but
zero-length Secret passes, DigestFor then computes a real HMAC keyed with
the empty byte string, and the sentinel is returned exactly when the
Secret is nil, never for an empty non-nil Secret. -/
theorem C9_empty_secret (α : Type) (c : MessageVerifier α) (ser : MsgSerializer α)
    (h0 : GoHash) (data : List Nat) :
    (c.Serializer = some ser → c.Secret = some [] → (checkInit (some c)).2 = none) ∧
    (c.Secret = some [] → c.Hasher = some h0 →
       c.DigestFor data = hexEncode (hmac h0 [] data)) ∧
    (∀ sec : List Nat, c.Secret = some sec → c.Hasher = some h0 →
       c.DigestFor data ≠ sentinel) ∧
    (c.Secret = none → c.DigestFor data = sentinel) := by
  refine ⟨?_, ?_, ?_, ?_⟩
  · intro hser hsec
    cases hh : c.Hasher with
    | none => rw [checkInit_config_default c ser [] hser hh hsec]
    | some hx => rw [checkInit_config c ser hx [] hser hh hsec]
  · intro hsec hh
    exact digestFor_some c [] h0 data hsec hh
  · intro sec hsec hh heq
    rw [digestFor_some c sec h0 data hsec hh] at heq
    have hlen := congrArg List.length heq
    rw [hexEncode_length] at hlen
    have hs : sentinel.length = 21 := rfl
    rw [hs] at hlen
    omega
  · intro hsec
    simp [MessageVerifier.DigestFor, hsec]

/-- C9 witness: a concrete verifier with `Secret = some []` passes
checkInit and digests with an empty HMAC key, while the nil-Secret
verifier gets the sentinel. -/
theorem C9_witness :
    (checkInit (some mvEmptyKey)).2 = none ∧
    mvEmptyKey.DigestFor [97] = hexEncode (hmac tinyHash [] [97]) ∧
    mvEmptyKey.DigestFor [97] ≠ sentinel ∧
    mvNoKey.DigestFor [97] = sentinel := by
  obtain ⟨h1, h2, h3, _⟩ := C9_empty_secret (List Nat) mvEmptyKey rawSer tinyHash [97]
  obtain ⟨_, _, _, h4⟩ := C9_empty_secret (List Nat) mvNoKey rawSer tinyHash [97]
  exact ⟨h1 rfl rfl, h2 rfl rfl, h3 [] rfl rfl, h4 rfl⟩

/-- C6: DigestFor returns the literal sentinel when no Secret is
configured; otherwise it is the lowercase-hex rendering of the HMAC of the
data keyed by the Secret under the configured hash, of length twice the
hash output length — 40 hex characters for the default SHA-1 — with every
character a lowercase hex digit; for a fixed secret and hash the digest is
the same on every call with the same data. -/
theorem C6_digestFor (α : Type) (oser : Option (MsgSerializer α)) (oh : Option GoHash)
    (sec data : List Nat) :
    MessageVerifier.DigestFor (⟨none, oh, oser⟩ : MessageVerifier α) data = sentinel ∧
    (∀ h0 : GoHash,
       MessageVerifier.DigestFor (⟨some sec, some h0, oser⟩ : MessageVerifier α) data
         = hexEncode (hmac h0 sec data) ∧
       (MessageVerifier.DigestFor (⟨some sec, some h0, oser⟩ : MessageVerifier α) data).length
         = 2 * (hmac h0 sec data).length) ∧
    (MessageVerifier.DigestFor (⟨some sec, some sha1Hash, oser⟩ : MessageVerifier α)
       data).length = 40 ∧
    (MessageVerifier.DigestFor (⟨some sec, some sha1Hash, oser⟩ : MessageVerifier α)
       data).all (fun ch => ((48 ≤ ch && ch ≤ 57) || (97 ≤ ch && ch ≤ 102))) = true ∧
    MessageVerifier.DigestFor (⟨some sec, some sha1Hash, oser⟩ : MessageVerifier α) data
      = MessageVerifier.DigestFor (⟨some sec, some sha1Hash, oser⟩ : MessageVerifier α) data := by
  have hD : ∀ h0 : GoHash,
      MessageVerifier.DigestFor (⟨some sec, some h0, oser⟩ : MessageVerifier α) data
        = hexEncode (hmac h0 sec data) := fun h0 => rfl
  refine ⟨rfl, fun h0 => ⟨hD h0, ?_⟩, ?_, ?_, rfl⟩
  · rw [hD h0, hexEncode_length]
  · rw [hD sha1Hash, hexEncode_length, hmac_sha1_length]
  · rw [hD sha1Hash]
    exact hexEncode_all_hexdigits _ (hmac_sha1_mem_lt sec data)

/-- C2: secureCompare returns false whenever the lengths differ (the
length test precedes the byte loop), and for equal-length inputs it is
true exactly when the strings are byte-for-byte equal — the result is the
OR-reduction of the bytewise XOR differences over every position, as in
the definition of `secureCompare`; Verify fails with the
digest-comparison InvalidSignature error exactly when this comparison of
the message's digest half against DigestFor of the data half is false. -/
theorem C2_secureCompare (α : Type) (c : MessageVerifier α) :
    (∀ a b : List Nat, a.length ≠ b.length → secureCompare a b = false) ∧
    (∀ a b : List Nat, a.length = b.length → (secureCompare a b = true ↔ a = b)) ∧
    (∀ (ser : MsgSerializer α) (h0 : GoHash) (sec msg data digest : List Nat),
       c.Serializer = some ser → c.Secret = some sec → c.Hasher = some h0 →
       msg ≠ [] → splitSep msg = [data, digest] →
       ((Verify (some c) msg).2 = .error (invalidSig "bad data (compare)") ↔
          secureCompare digest (c.DigestFor data) = false)) := by
  refine ⟨secureCompare_of_length_ne, secureCompare_eq_true_iff, ?_⟩
  intro ser h0 sec msg data digest hser hsec hh hmsg hsplit
  rw [Verify_eq_body c c ser (checkInit_config c ser h0 sec hser hh hsec) hser]
  simp only [verifyBody, hsplit]
  rw [if_neg hmsg, if_neg (by simp)]
  simp only [List.getD, List.get?_cons_succ, List.get?_cons_zero, Option.getD_some]
  cases hcmp : secureCompare digest (c.DigestFor data) with
  | false =>
    rw [if_pos rfl]
    simp
  | true =>
    rw [if_neg (by simp)]
    cases hu1 : ser.Unserialize (34 :: ((b64decode data).1 ++ [34])) with
    | ok v1 => simp [hu1]
    | error e1 =>
      cases hu2 : ser.Unserialize (b64decode data).1 with
      | ok v2 => simp [hu1, hu2]
      | error e2 => simp [hu1, hu2, invalidSig]

/-- C2 witness: a concrete two-part message whose digest half does not
match, rejected with the digest-comparison error. -/
theorem C2_witness :
    (Verify (some mvRaw) [97, 45, 45, 48, 48]).2
      = .error (invalidSig "bad data (compare)") := by
  have h := (C2_secureCompare (List Nat) mvRaw).2.2 rawSer tinyHash [107, 101, 121]
    [97, 45, 45, 48, 48] [97] [48, 48] rfl rfl rfl (by decide) (by decide)
  exact h.mpr (by decide)

/-- C7: Verify on the empty string, a separator-free string, and a
three-part string each fail with an InvalidSignature error before any
unserialization, so for every serializer the output target is never
populated. -/
theorem C7_malformed (α : Type) (c : MessageVerifier α) (ser : MsgSerializer α)
    (sec : List Nat) (hser : c.Serializer = some ser) (hsec : c.Secret = some sec) :
    (Verify (some c) []).2 = .error (invalidSig "empty message") ∧
    (Verify (some c) [110, 111, 100, 111, 117, 98, 108, 101, 100, 97, 115, 104]).2
      = .error (invalidSig "bad data --") ∧
    (Verify (some c) [97, 45, 45, 98, 45, 45, 99]).2 = .error (invalidSig "bad data --") := by
  cases hh : c.Hasher with
  | some h0 =>
    have hb := Verify_eq_body c c ser (checkInit_config c ser h0 sec hser hh hsec) hser
    refine ⟨?_, ?_, ?_⟩
    · rw [hb]; rfl
    · rw [hb]; simp only [verifyBody]; rw [if_neg (by decide), if_pos (by decide)]
    · rw [hb]; simp only [verifyBody]; rw [if_neg (by decide), if_pos (by decide)]
  | none =>
    have hck := checkInit_config_default c ser sec hser hh hsec
    have hser2 : (⟨c.Secret, some sha1Hash, c.Serializer⟩ : MessageVerifier α).Serializer
        = some ser := hser
    have hb := Verify_eq_body c ⟨c.Secret, some sha1Hash, c.Serializer⟩ ser hck hser2
    refine ⟨?_, ?_, ?_⟩
    · rw [hb]; rfl
    · rw [hb]; simp only [verifyBody]; rw [if_neg (by decide), if_pos (by decide)]
    · rw [hb]; simp only [verifyBody]; rw [if_neg (by decide), if_pos (by decide)]

/-- C7 witness: the three malformed inputs rejected on a concrete
configured verifier. -/
theorem C7_witness :
    (Verify (some mvRaw) []).2 = .error (invalidSig "empty message") ∧
    (Verify (some mvRaw) [110, 111, 100, 111, 117, 98, 108, 101, 100, 97, 115, 104]).2
      = .error (invalidSig "bad data --") ∧
    (Verify (some mvRaw) [97, 45, 45, 98, 45, 45, 99]).2 = .error (invalidSig "bad data --") :=
  C7_malformed (List Nat) mvRaw rawSer [107, 101, 121] rfl rfl

/-- C5: when the Serializer succeeds, Generate returns the standard padded
base64 encoding of the serialized bytes, joined by the two-dash separator
to the digest computed over the base64-encoded form (not over the raw
serialized bytes). -/
theorem C5_generate (α : Type) (c : MessageVerifier α) (ser : MsgSerializer α)
    (h0 : GoHash) (sec : List Nat) (v : α) (data : List Nat)
    (hser : c.Serializer = some ser) (hsec : c.Secret = some sec) (hh : c.Hasher = some h0)
    (hv : ser.Serialize v = .ok data) :
    (Generate (some c) v).2 =
      .ok (b64encode data ++ 45 :: 45 :: hexEncode (hmac h0 sec (b64encode data))) := by
  rw [Generate, checkInit_config c ser h0 sec hser hh hsec]
  simp only [hser, hv]
  rw [digestFor_some c sec h0 (b64encode data) hsec hh]

/-- C5 witness: Generate evaluated on a concrete verifier and value. -/
theorem C5_witness :
    (Generate (some mvQ) [104, 105]).2 =
      .ok (b64encode [34, 104, 105, 34] ++ 45 :: 45 ::
        hexEncode (hmac tinyHash [107, 101, 121] (b64encode [34, 104, 105, 34]))) :=
  C5_generate (List Nat) mvQ quotedSer tinyHash [107, 101, 121] [104, 105]
    [34, 104, 105, 34] rfl rfl rfl (by decide)

/-- C4 counterexample: the claim says Verify rejects any message with an
empty data or digest half at the split step, before computing any digest.
In fact `strings.Split` on `"--" ++ digest-of-""` yields two parts with an
empty data half, the split check passes, and Verify even succeeds; and
`"x--"` (empty digest half) is rejected only at the digest-comparison
step, with the comparison error, not the split error. -/
theorem C4_counterexample :
    (Verify (some mvRaw) [45, 45, 50, 97, 48, 54]).2 = .ok [34, 34] ∧
    (Verify (some mvRaw) [120, 45, 45]).2 = .error (invalidSig "bad data (compare)") := by
  constructor <;> decide

/-- C4 amended: Verify fails with the malformed-split InvalidSignature
error exactly when splitting on `--` does not yield exactly two parts;
the two parts may be empty — emptiness is not checked, and a two-part
message is never rejected with the split-step error (an empty half is
caught, if at all, only later at the digest comparison). -/
theorem C4_amended (α : Type) (c : MessageVerifier α) (ser : MsgSerializer α)
    (h0 : GoHash) (sec : List Nat)
    (hser : c.Serializer = some ser) (hsec : c.Secret = some sec)
    (hh : c.Hasher = some h0) :
    (∀ msg : List Nat, msg ≠ [] → (splitSep msg).length ≠ 2 →
       (Verify (some c) msg).2 = .error (invalidSig "bad data --")) ∧
    (∀ msg data digest : List Nat, msg ≠ [] → splitSep msg = [data, digest] →
       (Verify (some c) msg).2 ≠ .error (invalidSig "bad data --")) := by
  have hb := Verify_eq_body c c ser (checkInit_config c ser h0 sec hser hh hsec) hser
  constructor
  · intro msg hmsg hlen
    rw [hb]
    simp only [verifyBody]
    rw [if_neg hmsg, if_pos hlen]
  · intro msg data digest hmsg hsplit
    rw [hb]
    simp only [verifyBody, hsplit]
    rw [if_neg hmsg, if_neg (by simp)]
    simp only [List.getD, List.get?_cons_succ, List.get?_cons_zero, Option.getD_some]
    cases hcmp : secureCompare digest (c.DigestFor data) with
    | false =>
      rw [if_pos rfl]
      intro heq
      rw [Except.error.injEq, invalidSig, invalidSig, GoErr.msg.injEq] at heq
      exact absurd heq (by decide)
    | true =>
      rw [if_neg (by simp)]
      cases hu1 : ser.Unserialize (34 :: ((b64decode data).1 ++ [34])) with
      | ok v1 => simp [hu1]
      | error e1 =>
        cases hu2 : ser.Unserialize (b64decode data).1 with
        | ok v2 => simp [hu1, hu2]
        | error e2 => simp [hu1, hu2, invalidSig]

/-- C4 witness: a one-part message gets the split-step error, while a
two-part message does not. -/
theorem C4_witness :
    (Verify (some mvRaw) [97, 98]).2 = .error (invalidSig "bad data --") ∧
    (Verify (some mvRaw) [97, 45, 45, 98]).2 ≠ .error (invalidSig "bad data --") := by
  have h := C4_amended (List Nat) mvRaw rawSer tinyHash [107, 101, 121] rfl rfl rfl
  exact ⟨h.1 [97, 98] (by decide) (by decide),
         h.2 [97, 45, 45, 98] [97] [98] (by decide) (by decide)⟩

/-- C3: code bug exhibited. The code discards the strict base64 decode
error (`decodedData, _ := …`): on the failing input whose data half `"!"`
is malformed base64 but whose digest is valid, Verify does not fail with
an InvalidSignature error — the partially decoded (empty) bytes are
quote-wrapped, handed to the Serializer, and Verify succeeds. -/
theorem C3_decode_error_swallowed :
    (b64decode [33]).2 = false ∧
    (Verify (some mvRaw) [33, 45, 45, 52, 99, 48, 54]).2 = .ok [34, 34] := by
  constructor <;> decide

/-- C1 counterexample: a Serializer that round-trips the value `true`
(`Unserialize (Serialize true) = ok true`) but whose `Unserialize` also
accepts the quote-wrapped form, decoding it to `false`.  Generate succeeds,
yet Verify recovers `false`, not the original value, because Verify tries
the quote-wrapped bytes first. -/
theorem C1_counterexample :
    boolSer.Serialize true = .ok [120] ∧
    boolSer.Unserialize [120] = .ok true ∧
    (Generate (some mvBool) true).2 = .ok [101, 65, 61, 61, 45, 45, 52, 101, 48, 54] ∧
    (Verify (some mvBool) [101, 65, 61, 61, 45, 45, 52, 101, 48, 54]).2 = .ok false ∧
    (Verify (some mvBool) [101, 65, 61, 61, 45, 45, 52, 101, 48, 54]).2 ≠ .ok true :=
  ⟨by decide, by decide, by decide, by decide, by decide⟩

/-- C1 amended: for every configured Verifier whose Serializer round-trips
`v` and whose `Unserialize`, on the quote-wrapped serialized bytes, either
fails or also recovers `v`, Generate(v) succeeds with the signed string
and Verify of that string succeeds and recovers `v`. -/
theorem C1_amended (α : Type) (c : MessageVerifier α) (ser : MsgSerializer α)
    (h0 : GoHash) (sec : List Nat) (v : α) (data : List Nat)
    (hser : c.Serializer = some ser) (hsec : c.Secret = some sec) (hh : c.Hasher = some h0)
    (hbytes : ∀ b ∈ data, b < 256)
    (hfwd : ser.Serialize v = .ok data)
    (hround : ser.Unserialize data = .ok v)
    (hquoted : ∀ w, ser.Unserialize (34 :: (data ++ [34])) = .ok w → w = v) :
    (Generate (some c) v).2
      = .ok (b64encode data ++ 45 :: 45 :: hexEncode (hmac h0 sec (b64encode data))) ∧
    (Verify (some c)
        (b64encode data ++ 45 :: 45 :: hexEncode (hmac h0 sec (b64encode data)))).2
      = .ok v := by
  constructor
  · rw [Generate, checkInit_config c ser h0 sec hser hh hsec]
    simp only [hser, hfwd]
    rw [digestFor_some c sec h0 (b64encode data) hsec hh]
  · rw [Verify_eq_body c c ser (checkInit_config c ser h0 sec hser hh hsec) hser]
    have hE45 : 45 ∉ b64encode data := b64encode_not45 data
    have hD45 : 45 ∉ hexEncode (hmac h0 sec (b64encode data)) := hexEncode_not45 _
    have hsplit :
        splitSep (b64encode data ++ 45 :: 45 :: hexEncode (hmac h0 sec (b64encode data)))
          = [b64encode data, hexEncode (hmac h0 sec (b64encode data))] := by
      rw [splitSep_append_sep (b64encode data) hE45 _, splitSep_no_sep _ hD45]
    have hne :
        b64encode data ++ 45 :: 45 :: hexEncode (hmac h0 sec (b64encode data)) ≠ [] := by
      cases b64encode data <;> simp
    simp only [verifyBody, hsplit]
    rw [if_neg hne, if_neg (by simp)]
    simp only [List.getD, List.get?_cons_succ, List.get?_cons_zero, Option.getD_some]
    rw [digestFor_some c sec h0 (b64encode data) hsec hh, secureCompare_self]
    rw [if_neg (by simp)]
    simp only [b64decode_encode data hbytes, List.cons_append]
    cases hu1 : ser.Unserialize (34 :: (data ++ [34])) with
    | ok w =>
      simp only [hu1]
      rw [hquoted w hu1]
    | error e1 =>
      simp only [hu1, hround]

/-- C1 witness: the amended round-trip evaluated on a concrete verifier
with a strict quoted-text codec (the quote-wrapped attempt fails, the raw
fallback recovers the value). -/
theorem C1_witness :
    (Generate (some mvQ) [104, 105]).2
      = .ok (b64encode [34, 104, 105, 34] ++ 45 :: 45 ::
          hexEncode (hmac tinyHash [107, 101, 121] (b64encode [34, 104, 105, 34]))) ∧
    (Verify (some mvQ) (b64encode [34, 104, 105, 34] ++ 45 :: 45 ::
          hexEncode (hmac tinyHash [107, 101, 121] (b64encode [34, 104, 105, 34])))).2
      = .ok [104, 105] :=
  C1_amended (List Nat) mvQ quotedSer tinyHash [107, 101, 121] [104, 105] [34, 104, 105, 34]
    rfl rfl rfl (by decide) (by decide) (by decide)
    (fun w hw => by
      have hx : quotedSer.Unserialize (34 :: ([34, 104, 105, 34] ++ [34]))
          = .error (.msg "not a quoted string") := by decide
      rw [hx] at hw
      exact Except.noConfusion hw)

end GoCrypto
